import Mathlib

/-!
Shallow embedding of the ku-ie-validator validation engine
(`src/validator.py`, class `CourseRegistrationValidator`, and the pipeline
driver `src/utils/validation_adapter.py`, `ValidationAdapter.validate_transcript`).

Modelling conventions:
* Python dicts for course registrations / semesters / catalog entries become
  structures; fields the engine never reads are omitted, and the student
  metadata fields that are copied verbatim into every result are dropped.
* `self.all_courses` (the flattened catalog dict) becomes a `Catalog` lookup
  function `String → Option CourseInfo`.
* The mutable `validation_results` list becomes an explicit `List VResult`
  threaded through the propagation passes; in-place mutation of a result dict
  becomes updating the corresponding list element.
* Python `dict` snapshots (passed-courses maps) become association lists with
  insert-or-overwrite semantics preserving insertion order.
* Python sets whose iteration order is unspecified (`prereqs` in
  `propagate_invalidation`) are modelled as duplicate-free lists in first
  insertion order.
* Python floats are modelled as exact rationals; `round(x, 2)` becomes exact
  half-to-even rounding at two decimals.
-/

/-- One course registration inside a semester (`course` dict: code, name,
grade, credits). -/
structure Course where
  code : String
  name : String
  grade : String
  credits : Nat
deriving DecidableEq, Repr

/-- One semester of the transcript (`semester` dict: display name,
`semester_type`, caller-computed `total_credits`, ordered course list). -/
structure Semester where
  semester : String
  semester_type : String
  total_credits : Nat
  courses : List Course
deriving DecidableEq, Repr

/-- A prerequisite group from the catalog's `prerequisite_groups` format. -/
structure PrereqGroup where
  courses : List String
  concurrent_allowed : Bool
deriving DecidableEq, Repr

/-- A catalog entry as stored in `self.all_courses`.  A missing or empty
`prerequisites` / `prerequisite_groups` field is modelled as the empty list
(both are falsy in the Python truthiness tests the validator performs). -/
structure CourseInfo where
  code : String
  prerequisites : List String
  prerequisite_groups : List PrereqGroup
deriving DecidableEq, Repr

/-- The flattened course catalog `self.all_courses`: course code to entry. -/
def Catalog : Type := String → Option CourseInfo

/-- One validation result dict as produced by
`ValidationAdapter.validate_transcript` (student metadata fields that are
copied verbatim from the input are omitted). -/
structure VResult where
  semester : String
  semester_index : Nat
  course_code : String
  course_name : String
  grade : String
  is_valid : Bool
  reason : String
  type : String
deriving DecidableEq, Repr

/-- Used wherever Python would index `semesters[semester_index]`; the engine
is only ever called with in-range indices. -/
def emptySemester : Semester := ⟨"", "", 0, []⟩

/-- The passing-grade set used by `build_passed_courses_history`. -/
def passingGrades : List String := ["A", "B+", "B", "C+", "C", "D+", "D", "P"]

/-- Membership test for an association-list snapshot (`code in dict`). -/
def containsCode (m : List (String × String)) (c : String) : Bool :=
  m.any (fun p => p.1 == c)

/-- `dict[code] = grade` on an association-list snapshot: overwrite in place
if present, append otherwise (preserving Python dict insertion order). -/
def updGrade (m : List (String × String)) (c g : String) : List (String × String) :=
  if containsCode m c then m.map (fun p => if p.1 == c then (c, g) else p)
  else m ++ [(c, g)]

/-- Record the passing courses of one semester into a cumulative snapshot
(the inner loop of `build_passed_courses_history`). -/
def recordSemesterPasses (cum : List (String × String)) (s : Semester) :
    List (String × String) :=
  s.courses.foldl
    (fun m c => if passingGrades.contains c.grade then updGrade m c.code c.grade else m)
    cum

/-- `build_passed_courses_history` (validator.py:56): one cumulative snapshot
per semester.  In the source the per-semester snapshot starts as a copy of the
cumulative map and receives exactly the same inserts, so snapshot `i` equals
the cumulative map after semester `i`. -/
def build_passed_courses_history_aux (cum : List (String × String)) :
    List Semester → List (List (String × String))
  | [] => []
  | s :: rest =>
    let cum' := recordSemesterPasses cum s
    cum' :: build_passed_courses_history_aux cum' rest

/-- `build_passed_courses_history` entry point. -/
def build_passed_courses_history (semesters : List Semester) :
    List (List (String × String)) :=
  build_passed_courses_history_aux [] semesters

/-- `get_passed_courses_before_semester` (validator.py:88). -/
def get_passed_courses_before_semester (i : Nat)
    (hist : List (List (String × String))) : List (String × String) :=
  if i = 0 then [] else hist.getD (i - 1) []

/-- `has_failed_before` (validator.py:121). -/
def has_failed_before (code : String) (semesters : List Semester) (i : Nat) : Bool :=
  (semesters.take i).any (fun s => s.courses.any (fun c => c.code == code && c.grade == "F"))

/-- `is_taking_in_semester` (validator.py:139). -/
def is_taking_in_semester (code : String) (s : Semester) : Bool :=
  s.courses.any (fun c => c.code == code)

/-- `has_withdrawn_before` (validator.py:155). -/
def has_withdrawn_before (code : String) (semesters : List Semester) (i : Nat) : Bool :=
  (semesters.take i).any (fun s => s.courses.any (fun c => c.code == code && c.grade == "W"))

/-- `get_invalid_courses` (validator.py:173): codes of invalid results of the
current semester, skipping credit-limit results.  The Python set is modelled
as the (possibly duplicated) list of codes; only membership is ever used. -/
def get_invalid_courses (i : Nat) (results : List VResult) : List String :=
  (results.filter
    (fun r => r.course_code != "CREDIT_LIMIT" && r.semester_index == i && !r.is_valid)).map
    (fun r => r.course_code)

/-- `validate_credit_limit` (validator.py:377). -/
def validate_credit_limit (s : Semester) : Bool × String :=
  if s.semester_type == "Summer" then
    if s.total_credits > 9 then
      (false, "NOTICE: Exceeds typical 9 credits for summer (registered: " ++
        toString s.total_credits ++ ")")
    else (true, "Credit limit valid: " ++ toString s.total_credits ++ " credits")
  else
    if s.total_credits > 22 then
      (false, "NOTICE: Exceeds typical 22 credits for regular semester (registered: " ++
        toString s.total_credits ++ ")")
    else (true, "Credit limit valid: " ++ toString s.total_credits ++ " credits")

/-- The `grade_points` dict of `calculate_gpa` (validator.py:563), as a
lookup returning `none` for grades that do not contribute to the GPA. -/
def grade_points (g : String) : Option ℚ :=
  if g = "A" then some 4
  else if g = "B+" then some (7/2)
  else if g = "B" then some 3
  else if g = "C+" then some (5/2)
  else if g = "C" then some 2
  else if g = "D+" then some (3/2)
  else if g = "D" then some 1
  else if g = "F" then some 0
  else none

/-- Round a rational to the nearest integer, ties to even (the behaviour of
Python's `round` on exactly representable halves). -/
def roundHalfEven (q : ℚ) : ℤ :=
  let f := ⌊q⌋
  if q - f < 1/2 then f
  else if 1/2 < q - f then f + 1
  else if f % 2 = 0 then f else f + 1

/-- `round(x, 2)` modelled exactly over the rationals. -/
def roundTo2 (q : ℚ) : ℚ := (roundHalfEven (q * 100) : ℚ) / 100

/-- `calculate_gpa` (validator.py:553): weighted average over the courses
whose grade carries grade points, rounded to two decimals; `(0, 0)` when no
credits were counted. -/
def calculate_gpa (courses : List Course) : ℚ × Nat :=
  let totals : ℚ × Nat :=
    courses.foldl
      (fun acc c =>
        match grade_points c.grade with
        | none => acc
        | some gp => (acc.1 + gp * (c.credits : ℚ), acc.2 + c.credits))
      (0, 0)
  if totals.2 > 0 then (roundTo2 (totals.1 / (totals.2 : ℚ)), totals.2)
  else (0, 0)

/-- The loop body of `check_prerequisite_group_satisfied` (validator.py:229):
walk the group's required courses, stopping at the first unsatisfied one.
The third Python branch (`concurrent_allowed and has_failed_before and
is_taking_in_semester`) is kept although it is unreachable: the second branch
already consumes every `concurrent_allowed and is_taking_in_semester` case. -/
def checkGroupCourses (concurrent_allowed : Bool)
    (passedBefore : List (String × String)) (current : Semester)
    (semesters : List Semester) (i : Nat) (invalidCourses : List String) :
    List String → Bool × String
  | [] => (true, "All prerequisites in group satisfied")
  | p :: rest =>
    if containsCode passedBefore p then
      checkGroupCourses concurrent_allowed passedBefore current semesters i invalidCourses rest
    else if concurrent_allowed && is_taking_in_semester p current then
      if invalidCourses.contains p then
        (false, "Prerequisite " ++ p ++ " is invalid in current semester")
      else
        checkGroupCourses concurrent_allowed passedBefore current semesters i invalidCourses rest
    else if concurrent_allowed && has_failed_before p semesters i &&
        is_taking_in_semester p current then
      checkGroupCourses concurrent_allowed passedBefore current semesters i invalidCourses rest
    else if concurrent_allowed then
      (false, "Prerequisite " ++ p ++
        " not satisfied (not passed before and not taking concurrently)")
    else (false, "Prerequisite " ++ p ++ " not satisfied")

/-- `check_prerequisite_group_satisfied` (validator.py:197). -/
def check_prerequisite_group_satisfied (g : PrereqGroup)
    (passedBefore : List (String × String)) (current : Semester)
    (semesters : List Semester) (i : Nat) (invalidCourses : List String) :
    Bool × String :=
  if g.courses = [] then (true, "No prerequisites required")
  else checkGroupCourses g.concurrent_allowed passedBefore current semesters i
    invalidCourses g.courses

/-- The group loop of `validate_course` (validator.py:316): return valid on
the first satisfied group, invalid when none is. -/
def validateGroups (passedBefore : List (String × String)) (current : Semester)
    (semesters : List Semester) (i : Nat) (invalidCourses : List String) :
    List PrereqGroup → Bool × String
  | [] => (false, "No prerequisite groups are satisfied")
  | g :: rest =>
    let res := check_prerequisite_group_satisfied g passedBefore current semesters i
      invalidCourses
    if res.1 then (true, "Prerequisite group satisfied: " ++ res.2)
    else validateGroups passedBefore current semesters i invalidCourses rest

/-- The legacy flat-list loop of `validate_course` (validator.py:339). -/
def checkLegacyPrereqs (passedBefore : List (String × String)) (current : Semester)
    (semesters : List Semester) (i : Nat) (invalidCourses : List String)
    (withdrawnCourses : List String) : List String → Bool × String
  | [] => (true, "All prerequisites satisfied or eligible for concurrent registration")
  | p :: rest =>
    if containsCode passedBefore p then
      checkLegacyPrereqs passedBefore current semesters i invalidCourses withdrawnCourses rest
    else if withdrawnCourses.contains p then
      (false, "Prerequisite " ++ p ++ " was withdrawn (W) in this semester")
    else if is_taking_in_semester p current then
      if invalidCourses.contains p then
        (false, "Prerequisite " ++ p ++ " is invalid in current semester")
      else if has_failed_before p semesters i then
        checkLegacyPrereqs passedBefore current semesters i invalidCourses withdrawnCourses rest
      else if has_withdrawn_before p semesters i then
        (false, "Prerequisite " ++ p ++
          " withdrawn before - not eligible for concurrent registration")
      else
        (false, "Prerequisite " ++ p ++ " not satisfied for concurrent registration")
    else
      (false, "Prerequisite " ++ p ++
        " not satisfied and not eligible for concurrent registration")

/-- The codes withdrawn (grade W) in the given semester, as collected at
validator.py:301 and (per semester index) at validator.py:438. -/
def withdrawn_in (semesters : List Semester) (i : Nat) : List String :=
  ((semesters.getD i emptySemester).courses.filter (fun c => c.grade == "W")).map
    (fun c => c.code)

/-- `validate_course` (validator.py:257). -/
def validate_course (catalog : Catalog) (course : Course) (i : Nat)
    (semesters : List Semester) (hist : List (List (String × String)))
    (results : List VResult) : Bool × String :=
  let current := semesters.getD i emptySemester
  if course.grade == "W" then (true, "Course was withdrawn")
  else if course.grade == "N" then (true, "Course not graded yet")
  else
    match catalog course.code with
    | none => (true, "Course " ++ course.code ++ " not found in course data")
    | some info =>
      let passedBefore := get_passed_courses_before_semester i hist
      let invalidCourses := get_invalid_courses i results
      let withdrawnCourses := withdrawn_in semesters i
      if info.prerequisite_groups ≠ [] then
        validateGroups passedBefore current semesters i invalidCourses
          info.prerequisite_groups
      else if info.prerequisites = [] then (true, "No prerequisites required")
      else
        checkLegacyPrereqs passedBefore current semesters i invalidCourses
          withdrawnCourses info.prerequisites

/-- Does this result belong to course `code` in semester `i`?  (The key of the
`course_results` dict built at validator.py:408.) -/
def isResultFor (code : String) (i : Nat) (r : VResult) : Bool :=
  r.course_code == code && r.semester_index == i

/-- Lookup in the `course_results` dict: credit-limit results are excluded,
and with duplicate keys the Python dict keeps the last result object. -/
def resultLookup (results : List VResult) (code : String) (i : Nat) : Option VResult :=
  if code == "CREDIT_LIMIT" then none
  else (results.filter (isResultFor code i)).getLast?

/-- Mark the first result for `(code, i)` invalid with the given reason,
leaving every other result untouched. -/
def setFirstInvalid (code : String) (i : Nat) (reason : String) :
    List VResult → List VResult
  | [] => []
  | r :: rest =>
    if isResultFor code i r then { r with is_valid := false, reason := reason } :: rest
    else r :: setFirstInvalid code i reason rest

/-- The in-place mutation `course_results[result_key]["is_valid"] = False;
...["reason"] = ...` (validator.py:474): it mutates the result object the
dict maps the key to, i.e. the last result in the list with that key. -/
def setInvalid (results : List VResult) (code : String) (i : Nat) (reason : String) :
    List VResult :=
  (setFirstInvalid code i reason results.reverse).reverse

/-- Append a code to the merged prerequisite list unless already present
(modelling `set.update`; Python set iteration order is unspecified, so the
model fixes first-insertion order). -/
def insertUnique (l : List String) (x : String) : List String :=
  if l.contains x then l else l ++ [x]

/-- The merged prerequisite set of a catalog entry (validator.py:422):
legacy `prerequisites` united with all `prerequisite_groups` courses. -/
def merged_prereqs (info : CourseInfo) : List String :=
  (info.prerequisites ++ (info.prerequisite_groups.map (fun g => g.courses)).flatten).foldl
    insertUnique []

/-- Insert one registration's entry into the `course_prereqs` dict
(validator.py:416): skipped when the catalog misses the code or the merged
set is empty; a duplicate key keeps its (identical) value and its position. -/
def addPrereqEntry (catalog : Catalog) (i : Nat)
    (acc : List ((String × Nat) × List String)) (c : Course) :
    List ((String × Nat) × List String) :=
  match catalog c.code with
  | none => acc
  | some info =>
    if merged_prereqs info = [] then acc
    else if acc.any (fun e => e.1 = (c.code, i)) then acc
    else acc ++ [((c.code, i), merged_prereqs info)]

/-- The enumeration loop building `course_prereqs` (validator.py:416). -/
def course_prereqs_from (catalog : Catalog) :
    Nat → List Semester → List ((String × Nat) × List String) →
    List ((String × Nat) × List String)
  | _, [], acc => acc
  | i, s :: rest, acc =>
    course_prereqs_from catalog (i + 1) rest (s.courses.foldl (addPrereqEntry catalog i) acc)

/-- The `course_prereqs` dict of `propagate_invalidation`, as an ordered
association list with pairwise-distinct keys. -/
def course_prereqs (catalog : Catalog) (semesters : List Semester) :
    List ((String × Nat) × List String) :=
  course_prereqs_from catalog 0 semesters []

/-- Does `p` have an invalid result in semester `i` or any earlier one?
(The inner scan at validator.py:489.) -/
def prereq_invalid_up_to (results : List VResult) (p : String) (i : Nat) : Bool :=
  (List.range (i + 1)).any (fun j =>
    match resultLookup results p j with
    | some r => !r.is_valid
    | none => false)

/-- The same-semester-withdrawal stage of the propagation loop body
(validator.py:470-477): if some prerequisite of the entry is withdrawn in
the entry's semester, mark the entry's result invalid. -/
def processEntryStep1 (semesters : List Semester) (results : List VResult)
    (code : String) (i : Nat) (prereqs : List String) : List VResult × Bool :=
  match prereqs.find? (fun p => (withdrawn_in semesters i).contains p) with
  | some p =>
    (setInvalid results code i
      ("Prerequisite " ++ p ++ " was withdrawn (W) or failed (F) in this semester"),
      true)
  | none => (results, false)

/-- The body of the propagation loop for one `course_prereqs` entry
(validator.py:454-504).  Returns the updated result list and whether a change
was made.  Note the source order: the same-semester-withdrawal stage runs
*before* the `grade == "W"` skip, and for non-withdrawn courses the
invalid-prerequisite rule then reads the stage-1 state and can overwrite the
reason a second time. -/
def processEntry (semesters : List Semester) (results : List VResult)
    (entry : (String × Nat) × List String) : List VResult × Bool :=
  match resultLookup results entry.1.1 entry.1.2 with
  | none => (results, false)
  | some res =>
    if !res.is_valid then (results, false)
    else
      match (semesters.getD entry.1.2 emptySemester).courses.find?
          (fun c => c.code == entry.1.1) with
      | none => (results, false)
      | some course =>
        if course.grade == "N" then (results, false)
        else
          if course.grade == "W" then
            processEntryStep1 semesters results entry.1.1 entry.1.2 entry.2
          else
            match entry.2.find? (fun p => prereq_invalid_up_to
                (processEntryStep1 semesters results entry.1.1 entry.1.2 entry.2).1 p
                entry.1.2) with
            | some p =>
              (setInvalid (processEntryStep1 semesters results entry.1.1 entry.1.2 entry.2).1
                entry.1.1 entry.1.2 ("Prerequisite " ++ p ++ " is invalid"), true)
            | none => processEntryStep1 semesters results entry.1.1 entry.1.2 entry.2

/-- One step of the fold over `course_prereqs` entries: thread the result
list and accumulate the `changes_made` flag. -/
def passStep (semesters : List Semester) (acc : List VResult × Bool)
    (entry : (String × Nat) × List String) : List VResult × Bool :=
  ((processEntry semesters acc.1 entry).1, acc.2 || (processEntry semesters acc.1 entry).2)

/-- One full pass of the propagation `while` loop (validator.py:454),
folding the loop body over every `course_prereqs` entry and recording
whether any change was made. -/
def propagation_pass (catalog : Catalog) (semesters : List Semester)
    (results : List VResult) : List VResult × Bool :=
  (course_prereqs catalog semesters).foldl (passStep semesters) (results, false)

/-- The `while changes_made and iterations < 10` loop (validator.py:449),
with the remaining iteration budget as fuel.  Returns the final result list
and the number of passes performed. -/
def propagate_aux (catalog : Catalog) (semesters : List Semester) :
    Nat → List VResult → List VResult × Nat
  | 0, results => (results, 0)
  | fuel + 1, results =>
    if (propagation_pass catalog semesters results).2 then
      ((propagate_aux catalog semesters fuel (propagation_pass catalog semesters results).1).1,
        (propagate_aux catalog semesters fuel (propagation_pass catalog semesters results).1).2 + 1)
    else ((propagation_pass catalog semesters results).1, 1)

/-- `propagate_invalidation` (validator.py:395): the final result list after
at most 10 propagation passes. -/
def propagate_invalidation (catalog : Catalog) (semesters : List Semester)
    (results : List VResult) : List VResult :=
  (propagate_aux catalog semesters 10 results).1

/-- The number of propagation passes `propagate_invalidation` performs
(the source's `iterations` counter). -/
def propagate_iterations (catalog : Catalog) (semesters : List Semester)
    (results : List VResult) : Nat :=
  (propagate_aux catalog semesters 10 results).2

/-- The per-course result record appended by
`ValidationAdapter.validate_transcript` (validation_adapter.py:128,144). -/
def mkCourseResult (sem : Semester) (i : Nat) (c : Course) (v : Bool)
    (reason : String) : VResult :=
  { semester := sem.semester, semester_index := i, course_code := c.code,
    course_name := c.name, grade := c.grade, is_valid := v, reason := reason,
    type := "prerequisite" }

/-- The credit-limit result the adapter appends for a semester
(validation_adapter.py:108): produced only when `validate_credit_limit`
reports the threshold exceeded, and then recorded with `is_valid = True`
since credit overload is only a warning. -/
def credit_limit_result (s : Semester) (i : Nat) : Option VResult :=
  let cl := validate_credit_limit s
  if cl.1 then none
  else some
    { semester := s.semester, semester_index := i,
      course_code := "CREDIT_LIMIT", course_name := "Credit Limit Validation",
      grade := "N/A", is_valid := true, reason := cl.2, type := "credit_limit" }

/-- The adapter's inner loop over one semester's courses
(validation_adapter.py:125): withdrawn courses get an immediate valid result,
every other course is validated against the results accumulated so far. -/
def validate_semester_courses (catalog : Catalog) (semesters : List Semester)
    (hist : List (List (String × String))) (i : Nat) (sem : Semester)
    (acc : List VResult) : List VResult :=
  sem.courses.foldl
    (fun acc c =>
      if c.grade == "W" then acc ++ [mkCourseResult sem i c true "Course was withdrawn"]
      else
        let vr := validate_course catalog c i semesters hist acc
        acc ++ [mkCourseResult sem i c vr.1 vr.2])
    acc

/-- The adapter's outer loop over semesters (validation_adapter.py:106). -/
def validate_semesters_from (catalog : Catalog) (semesters : List Semester)
    (hist : List (List (String × String))) :
    Nat → List Semester → List VResult → List VResult
  | _, [], acc => acc
  | i, sem :: rest, acc =>
    let acc1 := acc ++ (credit_limit_result sem i).toList
    let acc2 := validate_semester_courses catalog semesters hist i sem acc1
    validate_semesters_from catalog semesters hist (i + 1) rest acc2

/-- The evaluation phase of `ValidationAdapter.validate_transcript`:
credit-limit checks and per-course validation, threading the partial result
list. -/
def validate_all_courses (catalog : Catalog) (semesters : List Semester) :
    List VResult :=
  validate_semesters_from catalog semesters (build_passed_courses_history semesters)
    0 semesters []

/-- `ValidationAdapter.validate_transcript` (validation_adapter.py:85):
build history, evaluate every course in caller order, propagate. -/
def validate_transcript (catalog : Catalog) (semesters : List Semester) :
    List VResult :=
  propagate_invalidation catalog semesters (validate_all_courses catalog semesters)

/-- The engine's observable state: the caller's semester list together with
the produced result set.  One run reads `semesters` and replaces `results`. -/
structure EngineState where
  semesters : List Semester
  results : List VResult

/-- One full validation run over the state: the result list is rebuilt from
scratch and the semester list is passed through untouched (no step of
`validate_transcript` writes to a semester). -/
def run_validation (catalog : Catalog) (st : EngineState) : EngineState :=
  { semesters := st.semesters,
    results := validate_transcript catalog st.semesters }

/-! Specification-side definitions, written from the spec's words, to be
compared with the definitions translated from the source. -/

/-- From the spec: a course inside a prerequisite group is satisfied when it
appears in the semester-(i-1) history snapshot, or when the group allows
concurrent enrolment, the course is registered in the same semester, and its
own result-so-far is not invalid. -/
def groupCourseSatisfiedSpec (g : PrereqGroup) (passedBefore : List (String × String))
    (current : Semester) (invalidCourses : List String) (p : String) : Bool :=
  containsCode passedBefore p ||
    (g.concurrent_allowed && is_taking_in_semester p current && !invalidCourses.contains p)

/-- From the spec: a group is satisfied when every course in it is satisfied;
an empty course list is trivially satisfied. -/
def groupSatisfiedSpec (g : PrereqGroup) (passedBefore : List (String × String))
    (current : Semester) (invalidCourses : List String) : Bool :=
  g.courses.all (groupCourseSatisfiedSpec g passedBefore current invalidCourses)

/-- The success message the code reports for a satisfied group. -/
def groupReasonSpec (g : PrereqGroup) : String :=
  if g.courses = [] then "No prerequisites required"
  else "All prerequisites in group satisfied"

/-- From the spec: evaluate the groups in listed order and return valid on
the first fully-satisfied one; invalid when none is satisfied. -/
def validateGroupsSpec (passedBefore : List (String × String)) (current : Semester)
    (invalidCourses : List String) (groups : List PrereqGroup) : Bool × String :=
  match groups.find? (fun g => groupSatisfiedSpec g passedBefore current invalidCourses) with
  | some g => (true, "Prerequisite group satisfied: " ++ groupReasonSpec g)
  | none => (false, "No prerequisite groups are satisfied")

/-- From the spec: the failure (if any) a single legacy prerequisite causes.
`none` means the prerequisite is satisfied: passed before, or taken
concurrently after a strictly earlier F with a not-invalid result-so-far. -/
def legacyFailureSpec (passedBefore : List (String × String)) (current : Semester)
    (semesters : List Semester) (i : Nat) (invalidCourses : List String)
    (withdrawnCourses : List String) (p : String) : Option String :=
  if containsCode passedBefore p then none
  else if withdrawnCourses.contains p then
    some ("Prerequisite " ++ p ++ " was withdrawn (W) in this semester")
  else if is_taking_in_semester p current then
    if invalidCourses.contains p then
      some ("Prerequisite " ++ p ++ " is invalid in current semester")
    else if has_failed_before p semesters i then none
    else if has_withdrawn_before p semesters i then
      some ("Prerequisite " ++ p ++
        " withdrawn before - not eligible for concurrent registration")
    else some ("Prerequisite " ++ p ++ " not satisfied for concurrent registration")
  else
    some ("Prerequisite " ++ p ++
      " not satisfied and not eligible for concurrent registration")

/-- From the spec: legacy evaluation fails on the first prerequisite with a
failure, reporting that failure's reason, and is valid when none fails. -/
def checkLegacyPrereqsSpec (passedBefore : List (String × String)) (current : Semester)
    (semesters : List Semester) (i : Nat) (invalidCourses : List String)
    (withdrawnCourses : List String) (prereqs : List String) : Bool × String :=
  match prereqs.findSome?
      (legacyFailureSpec passedBefore current semesters i invalidCourses withdrawnCourses) with
  | some msg => (false, msg)
  | none => (true, "All prerequisites satisfied or eligible for concurrent registration")

/-- From the spec: a legacy prerequisite is satisfied exactly when it was
passed in an earlier semester, or it is not withdrawn this semester, is taken
concurrently, its result-so-far is not invalid, and it was failed before. -/
def legacySatisfiedSpec (passedBefore : List (String × String)) (current : Semester)
    (semesters : List Semester) (i : Nat) (invalidCourses : List String)
    (withdrawnCourses : List String) (p : String) : Bool :=
  containsCode passedBefore p ||
    (!withdrawnCourses.contains p && is_taking_in_semester p current &&
      !invalidCourses.contains p && has_failed_before p semesters i)

/-- From the spec: the grades that count towards the GPA. -/
def countedGradesSpec : List String := ["A", "B+", "B", "C+", "C", "D+", "D", "F"]

/-- From the spec: the grade-point value of each counted grade. -/
def gradePointsSpec (g : String) : ℚ :=
  if g = "A" then 4
  else if g = "B+" then 7/2
  else if g = "B" then 3
  else if g = "C+" then 5/2
  else if g = "C" then 2
  else if g = "D+" then 3/2
  else if g = "D" then 1
  else 0

/-- From the spec: `round(Σ points·credits / Σ credits, 2)` over exactly the
courses with a counted grade, and `0` when the counted credit sum is zero. -/
def calculate_gpa_spec (courses : List Course) : ℚ :=
  let counted := courses.filter (fun c => countedGradesSpec.contains c.grade)
  let creds : Nat := (counted.map (fun c => c.credits)).sum
  if creds = 0 then 0
  else roundTo2 (((counted.map (fun c => gradePointsSpec c.grade * (c.credits : ℚ))).sum) / (creds : ℚ))

/-- Position-wise monotonicity of invalidation: a result invalid on the left
is still invalid at the same position on the right. -/
def invalidMono (l l' : List VResult) : Prop :=
  List.Forall₂ (fun r r' => r.is_valid = false → r'.is_valid = false) l l'

/-- Every `course_prereqs` entry carries the merged prerequisite set of the
catalog entry its key's course code resolves to. -/
def entryVal (catalog : Catalog) (e : (String × Nat) × List String) : Prop :=
  ∃ info, catalog e.1.1 = some info ∧ e.2 = merged_prereqs info

/-! Concrete inputs used by witnesses and counterexamples. -/

/-- A catalog with one group-based entry: course C requires group {P}. -/
def catGroups : Catalog := fun c =>
  if c = "C" then some ⟨"C", [], [⟨["P"], false⟩]⟩ else none

/-- P passed in the first semester, C taken in the second. -/
def semsGroups : List Semester :=
  [⟨"S1", "First", 3, [⟨"P", "p", "A", 3⟩]⟩,
   ⟨"S2", "Second", 3, [⟨"C", "c", "A", 3⟩]⟩]

/-- A catalog with one legacy entry: course Y requires X. -/
def catLegacy : Catalog := fun c =>
  if c = "Y" then some ⟨"Y", ["X"], []⟩ else none

/-- The concurrent-retake scenario: X failed in semester 1, retaken together
with Y in semester 2. -/
def semsLegacy : List Semester :=
  [⟨"S1", "First", 3, [⟨"X", "x", "F", 3⟩]⟩,
   ⟨"S2", "Second", 6, [⟨"X", "x", "A", 3⟩, ⟨"Y", "y", "B", 3⟩]⟩]

/-- The same scenario with the semester-2 retake of X withdrawn. -/
def semsLegacyW : List Semester :=
  [⟨"S1", "First", 3, [⟨"X", "x", "F", 3⟩]⟩,
   ⟨"S2", "Second", 6, [⟨"X", "x", "W", 3⟩, ⟨"Y", "y", "B", 3⟩]⟩]

/-- A catalog where X requires P (for the withdrawn-course propagation
scenarios). -/
def catWdep : Catalog := fun c =>
  if c = "X" then some ⟨"X", ["P"], []⟩ else none

/-- P and X both withdrawn in the same semester. -/
def semsWdep : List Semester :=
  [⟨"S1", "First", 6, [⟨"P", "p", "W", 3⟩, ⟨"X", "x", "W", 3⟩]⟩]

/-- The result list entering propagation for `semsWdep`: X is valid. -/
def resWdep : List VResult :=
  [⟨"S1", 0, "X", "x", "W", true, "Course was withdrawn", "prerequisite"⟩]

/-- A catalog where X requires Q (Q never withdrawn). -/
def catWskip : Catalog := fun c =>
  if c = "X" then some ⟨"X", ["Q"], []⟩ else none

/-- X withdrawn, its prerequisite Q not registered at all. -/
def semsWskip : List Semester :=
  [⟨"S1", "First", 3, [⟨"X", "x", "W", 3⟩]⟩]

/-- The result list entering propagation for `semsWskip`: X is valid. -/
def resWskip : List VResult :=
  [⟨"S1", 0, "X", "x", "W", true, "Course was withdrawn", "prerequisite"⟩]

/-- A catalog where Y requires P (for the passed-then-withdrawn scenario). -/
def catPassedW : Catalog := fun c =>
  if c = "Y" then some ⟨"Y", ["P"], []⟩ else none

/-- P passed in semester 1, retaken and withdrawn in semester 2 alongside Y. -/
def semsPassedW : List Semester :=
  [⟨"S1", "First", 3, [⟨"P", "p", "A", 3⟩]⟩,
   ⟨"S2", "Second", 6, [⟨"P", "p", "W", 3⟩, ⟨"Y", "y", "A", 3⟩]⟩]

/-- The result list entering propagation for `semsPassedW`: Y is valid. -/
def resPassedW : List VResult :=
  [⟨"S2", 1, "P", "p", "W", true, "Course was withdrawn", "prerequisite"⟩,
   ⟨"S2", 1, "Y", "y", "A", true, "All prerequisites satisfied", "prerequisite"⟩]

/-! Helper lemmas. -/

theorem grade_points_counted (g : String) :
    grade_points g =
      if countedGradesSpec.contains g then some (gradePointsSpec g) else none := by
  unfold grade_points countedGradesSpec gradePointsSpec
  split_ifs with h1 h2 h3 h4 h5 h6 h7 h8 <;> simp_all

theorem gpa_foldl (courses : List Course) (p : ℚ) (n : Nat) :
    courses.foldl
      (fun acc c =>
        match grade_points c.grade with
        | none => acc
        | some gp => (acc.1 + gp * (c.credits : ℚ), acc.2 + c.credits))
      (p, n) =
    (p + ((courses.filter (fun c => countedGradesSpec.contains c.grade)).map
        (fun c => gradePointsSpec c.grade * (c.credits : ℚ))).sum,
      n + ((courses.filter (fun c => countedGradesSpec.contains c.grade)).map
        (fun c => c.credits)).sum) := by
  induction courses generalizing p n with
  | nil => simp
  | cons c cs ih =>
    simp only [List.foldl_cons, List.filter_cons, grade_points_counted c.grade]
    by_cases h : countedGradesSpec.contains c.grade
    · simp only [h, if_true]
      rw [ih]
      simp [add_assoc, Nat.add_assoc]
    · simp only [h, Bool.false_eq_true, if_false]
      rw [ih]

/-- C7: for every list of courses, `calculate_gpa` returns
`round(Σ(points(grade)×credits) / Σ(credits), 2)` over exactly the courses
whose grade is in {A, B+, B, C+, C, D+, D, F} with points 4.0, 3.5, 3.0, 2.5,
2.0, 1.5, 1.0, 0.0 (W, P, N and unrecognized grades contribute no points and
no credits), returns 0 when the counted credit sum is zero, and in particular
[{grade A, 3 credits}, {grade B, 3 credits}] gives 3.5. -/
theorem calculate_gpa_correct :
    (∀ courses : List Course, (calculate_gpa courses).1 = calculate_gpa_spec courses) ∧
    (calculate_gpa [⟨"C1", "a", "A", 3⟩, ⟨"C2", "b", "B", 3⟩]).1 = 7/2 := by
  constructor
  · intro courses
    unfold calculate_gpa calculate_gpa_spec
    rw [gpa_foldl]
    simp only [zero_add]
    by_cases h : ((courses.filter (fun c => countedGradesSpec.contains c.grade)).map
        (fun c => c.credits)).sum = 0
    · rw [if_neg (by omega), if_pos h]
    · rw [if_pos (by omega), if_neg h]
  · have h1 : (calculate_gpa [⟨"C1", "a", "A", 3⟩, ⟨"C2", "b", "B", 3⟩]).1 =
        roundTo2 (7/2) := by
      simp [calculate_gpa, grade_points]
      norm_num
    rw [h1]
    have h2 : (7/2 : ℚ) * 100 = ((350 : ℤ) : ℚ) := by norm_num
    unfold roundTo2 roundHalfEven
    rw [h2, Int.floor_intCast]
    norm_num

/-- C8: a registration graded W or N, or whose course code has no catalog
entry, always validates as valid with the corresponding reason, and no
prerequisite rule is consulted (the result does not depend on history,
catalog prerequisites, or prior results). -/
theorem validate_course_wn_unknown_valid (catalog : Catalog) (course : Course)
    (i : Nat) (semesters : List Semester) (hist : List (List (String × String)))
    (results : List VResult) :
    (course.grade = "W" →
      validate_course catalog course i semesters hist results =
        (true, "Course was withdrawn")) ∧
    (course.grade = "N" →
      validate_course catalog course i semesters hist results =
        (true, "Course not graded yet")) ∧
    (course.grade ≠ "W" → course.grade ≠ "N" → catalog course.code = none →
      validate_course catalog course i semesters hist results =
        (true, "Course " ++ course.code ++ " not found in course data")) := by
  unfold validate_course
  refine ⟨fun h => ?_, fun h => ?_, fun hW hN hc => ?_⟩
  · simp [h]
  · simp [h]
  · simp only [beq_iff_eq, hW, hN, if_false, hc]

/-- Witness for C8 at concrete registrations. -/
theorem validate_course_wn_unknown_valid_witness :
    validate_course (fun _ => none) ⟨"C9", "c", "W", 3⟩ 0 [] [] [] =
      (true, "Course was withdrawn") ∧
    validate_course (fun _ => none) ⟨"C9", "c", "N", 3⟩ 0 [] [] [] =
      (true, "Course not graded yet") ∧
    validate_course (fun _ => none) ⟨"C9", "c", "A", 3⟩ 0 [] [] [] =
      (true, "Course C9 not found in course data") :=
  ⟨(validate_course_wn_unknown_valid (fun _ => none) ⟨"C9", "c", "W", 3⟩ 0 [] [] []).1 rfl,
   (validate_course_wn_unknown_valid (fun _ => none) ⟨"C9", "c", "N", 3⟩ 0 [] [] []).2.1 rfl,
   (validate_course_wn_unknown_valid (fun _ => none) ⟨"C9", "c", "A", 3⟩ 0 [] [] []).2.2
     (by decide) (by decide) rfl⟩

/-- C5: the credit-limit check compares the caller-supplied total to 9 for
Summer and 22 otherwise; exceeding the threshold yields a recorded result
with `is_valid = true` carrying the NOTICE reason (a warning, not a failure),
no result at all is recorded otherwise, and the sentinel-coded result can
never act in propagation (the propagation lookup ignores the sentinel). -/
theorem credit_limit_notice (s : Semester) (i : Nat) :
    ((validate_credit_limit s).1 = false ↔
      (if s.semester_type = "Summer" then 9 else 22) < s.total_credits) ∧
    (credit_limit_result s i = none ↔ (validate_credit_limit s).1 = true) ∧
    (∀ r, credit_limit_result s i = some r →
      r.is_valid = true ∧ r.course_code = "CREDIT_LIMIT" ∧
      (r.reason = "NOTICE: Exceeds typical 9 credits for summer (registered: " ++
          toString s.total_credits ++ ")" ∨
        r.reason = "NOTICE: Exceeds typical 22 credits for regular semester (registered: " ++
          toString s.total_credits ++ ")")) ∧
    (∀ results : List VResult, ∀ j : Nat,
      resultLookup results "CREDIT_LIMIT" j = none) := by
  refine ⟨?_, ?_, ?_, ?_⟩
  · unfold validate_credit_limit
    split_ifs with h1 h2 h3 <;> simp_all
  · unfold credit_limit_result
    rcases h : (validate_credit_limit s).1 <;> simp [h]
  · intro r hr
    unfold credit_limit_result at hr
    rcases h : validate_credit_limit s with ⟨b, msg⟩
    rw [h] at hr
    rcases b with _ | _
    · simp only [if_neg Bool.false_ne_true, Option.some.injEq] at hr
      subst hr
      refine ⟨rfl, rfl, ?_⟩
      unfold validate_credit_limit at h
      split_ifs at h with h1 h2 h3 <;> simp_all
    · simp at hr
  · intro results j
    unfold resultLookup
    simp

/-- Witness for C5: a First-semester total of 22 records nothing, 23 records
the valid NOTICE result; a Summer total of 9 records nothing, 10 records the
valid NOTICE result. -/
theorem credit_limit_notice_witness :
    credit_limit_result ⟨"F1", "First", 22, []⟩ 0 = none ∧
    (credit_limit_result ⟨"F1", "First", 23, []⟩ 0).isSome = true ∧
    credit_limit_result ⟨"S1", "Summer", 9, []⟩ 0 = none ∧
    (credit_limit_result ⟨"S1", "Summer", 10, []⟩ 0).isSome = true ∧
    (validate_credit_limit ⟨"F1", "First", 23, []⟩).1 = false ∧
    ((credit_limit_result ⟨"S1", "Summer", 10, []⟩ 0).map (fun r => r.is_valid)) =
      some true := by
  have h23 := (credit_limit_notice ⟨"F1", "First", 23, []⟩ 0).1.mpr (by decide)
  have h22 := (credit_limit_notice ⟨"F1", "First", 22, []⟩ 0).2.1.mpr (by decide)
  have h9 := (credit_limit_notice ⟨"S1", "Summer", 9, []⟩ 0).2.1.mpr (by decide)
  refine ⟨h22, by decide, h9, by decide, h23, ?_⟩
  have h10 := (credit_limit_notice ⟨"S1", "Summer", 10, []⟩ 0).2.2.1
  rcases hx : credit_limit_result ⟨"S1", "Summer", 10, []⟩ 0 with _ | r
  · exact absurd (((credit_limit_notice ⟨"S1", "Summer", 10, []⟩ 0).2.1.mp hx)) (by decide)
  · simp [(h10 r hx).1]

/-- C9: the engine is deterministic and side-effect-free on its inputs: one
run leaves the semester list unchanged, and a second run on the state the
first run left behind produces the identical result set. -/
theorem engine_run_deterministic (catalog : Catalog) (sems : List Semester) :
    (run_validation catalog ⟨sems, []⟩).semesters = sems ∧
    (run_validation catalog (run_validation catalog ⟨sems, []⟩)).results =
      (run_validation catalog ⟨sems, []⟩).results :=
  ⟨rfl, rfl⟩

theorem checkGroupCourses_fst (ca : Bool) (pb : List (String × String))
    (cur : Semester) (sems : List Semester) (i : Nat) (inv : List String) :
    ∀ cs : List String,
      (checkGroupCourses ca pb cur sems i inv cs).1 =
        cs.all (fun p => containsCode pb p ||
          (ca && is_taking_in_semester p cur && !inv.contains p)) := by
  intro cs
  induction cs with
  | nil => rfl
  | cons p rest ih =>
    unfold checkGroupCourses
    rw [List.all_cons]
    rcases h1 : containsCode pb p with _ | _
    · rcases h2 : ca && is_taking_in_semester p cur with _ | _
      · have h4 : (ca && has_failed_before p sems i && is_taking_in_semester p cur) = false := by
          rcases hca : ca with _ | _
          · simp [hca]
          · rcases ht : is_taking_in_semester p cur with _ | _
            · simp [ht]
            · rw [hca, ht] at h2
              simp at h2
        simp only [if_false, Bool.false_eq_true, h4]
        rcases hca : ca with _ | _ <;> simp
      · rcases h3 : inv.contains p with _ | _
        · simp [ih]
        · simp
    · simp [ih]

theorem checkGroupCourses_snd_of_all (ca : Bool) (pb : List (String × String))
    (cur : Semester) (sems : List Semester) (i : Nat) (inv : List String) :
    ∀ cs : List String,
      cs.all (fun p => containsCode pb p ||
        (ca && is_taking_in_semester p cur && !inv.contains p)) = true →
      (checkGroupCourses ca pb cur sems i inv cs).2 =
        "All prerequisites in group satisfied" := by
  intro cs
  induction cs with
  | nil => intro _; rfl
  | cons p rest ih =>
    intro hall
    rw [List.all_cons, Bool.and_eq_true] at hall
    unfold checkGroupCourses
    rcases h1 : containsCode pb p with _ | _
    · have hsat : (ca && is_taking_in_semester p cur && !inv.contains p) = true := by
        have h := hall.1
        rw [h1, Bool.false_or] at h
        exact h
      rw [Bool.and_eq_true] at hsat
      have h3' : inv.contains p = false := by
        have h := hsat.2
        simp only [Bool.not_eq_true'] at h
        exact h
      simp only [hsat.1, h3', Bool.false_eq_true, if_false, if_true]
      exact ih hall.2
    · simp only [if_true]
      exact ih hall.2

theorem check_group_fst (g : PrereqGroup) (pb : List (String × String))
    (cur : Semester) (sems : List Semester) (i : Nat) (inv : List String) :
    (check_prerequisite_group_satisfied g pb cur sems i inv).1 =
      groupSatisfiedSpec g pb cur inv := by
  unfold check_prerequisite_group_satisfied groupSatisfiedSpec groupCourseSatisfiedSpec
  by_cases h : g.courses = []
  · simp [h]
  · simp only [h, if_false]
    exact checkGroupCourses_fst g.concurrent_allowed pb cur sems i inv g.courses

theorem check_group_snd (g : PrereqGroup) (pb : List (String × String))
    (cur : Semester) (sems : List Semester) (i : Nat) (inv : List String)
    (h : groupSatisfiedSpec g pb cur inv = true) :
    (check_prerequisite_group_satisfied g pb cur sems i inv).2 = groupReasonSpec g := by
  unfold check_prerequisite_group_satisfied groupReasonSpec
  by_cases hc : g.courses = []
  · simp [hc]
  · simp only [hc, if_false]
    exact checkGroupCourses_snd_of_all g.concurrent_allowed pb cur sems i inv g.courses h

theorem validateGroups_eq (pb : List (String × String)) (cur : Semester)
    (sems : List Semester) (i : Nat) (inv : List String) :
    ∀ groups : List PrereqGroup,
      validateGroups pb cur sems i inv groups = validateGroupsSpec pb cur inv groups := by
  intro groups
  induction groups with
  | nil => rfl
  | cons g rest ih =>
    unfold validateGroups validateGroupsSpec
    rw [List.find?_cons]
    by_cases h : groupSatisfiedSpec g pb cur inv
    · simp only [h, if_true, check_group_fst g pb cur sems i inv]
      rw [check_group_snd g pb cur sems i inv h]
    · simp only [check_group_fst g pb cur sems i inv, h, Bool.false_eq_true, if_false]
      rw [ih]
      rfl

/-- C1: for a course with a non-empty `prerequisite_groups` list and a
gradable grade, `validate_course` evaluates groups in listed order and
returns valid on the first group whose courses are all satisfied — a course
being satisfied when it is in the semester-(i-1) history snapshot, or the
group allows concurrency, the course is registered in the same semester, and
its own result-so-far is not invalid; an empty group is trivially satisfied
and a course with no satisfied group is invalid. -/
theorem validate_course_groups_correct (catalog : Catalog) (course : Course)
    (i : Nat) (semesters : List Semester) (hist : List (List (String × String)))
    (results : List VResult) (info : CourseInfo)
    (hW : course.grade ≠ "W") (hN : course.grade ≠ "N")
    (hc : catalog course.code = some info)
    (hg : info.prerequisite_groups ≠ []) :
    validate_course catalog course i semesters hist results =
      validateGroupsSpec (get_passed_courses_before_semester i hist)
        (semesters.getD i emptySemester) (get_invalid_courses i results)
        info.prerequisite_groups := by
  unfold validate_course
  simp only [beq_iff_eq, hW, hN, if_false, hc, hg, ne_eq, not_false_iff, if_true]
  exact validateGroups_eq _ _ semesters i _ info.prerequisite_groups

/-- Witness for C1: with P passed in semester 1, course C's single group {P}
is satisfied and C validates as valid with the first-group reason. -/
theorem validate_course_groups_correct_witness :
    validate_course catGroups ⟨"C", "c", "A", 3⟩ 1 semsGroups
        (build_passed_courses_history semsGroups) [] =
      (true, "Prerequisite group satisfied: All prerequisites in group satisfied") :=
  (validate_course_groups_correct catGroups ⟨"C", "c", "A", 3⟩ 1 semsGroups
    (build_passed_courses_history semsGroups) [] ⟨"C", [], [⟨["P"], false⟩]⟩
    (by decide) (by decide) rfl (by decide)).trans (by decide)

theorem checkLegacy_cons (pb : List (String × String)) (cur : Semester)
    (sems : List Semester) (i : Nat) (inv : List String) (wd : List String)
    (p : String) (rest : List String) :
    checkLegacyPrereqs pb cur sems i inv wd (p :: rest) =
      match legacyFailureSpec pb cur sems i inv wd p with
      | some msg => (false, msg)
      | none => checkLegacyPrereqs pb cur sems i inv wd rest := by
  simp only [checkLegacyPrereqs, legacyFailureSpec]
  split_ifs <;> rfl

theorem checkLegacyPrereqs_eq (pb : List (String × String)) (cur : Semester)
    (sems : List Semester) (i : Nat) (inv : List String) (wd : List String) :
    ∀ ps : List String,
      checkLegacyPrereqs pb cur sems i inv wd ps =
        checkLegacyPrereqsSpec pb cur sems i inv wd ps := by
  intro ps
  induction ps with
  | nil => rfl
  | cons p rest ih =>
    rw [checkLegacy_cons]
    unfold checkLegacyPrereqsSpec
    rw [List.findSome?_cons]
    cases h : legacyFailureSpec pb cur sems i inv wd p with
    | none => rw [ih]; rfl
    | some msg => rfl

theorem legacyFailureSpec_none_iff (pb : List (String × String)) (cur : Semester)
    (sems : List Semester) (i : Nat) (inv : List String) (wd : List String)
    (p : String) :
    legacyFailureSpec pb cur sems i inv wd p = none ↔
      legacySatisfiedSpec pb cur sems i inv wd p = true := by
  unfold legacyFailureSpec legacySatisfiedSpec
  split_ifs <;> simp_all

theorem checkLegacyPrereqs_fst (pb : List (String × String)) (cur : Semester)
    (sems : List Semester) (i : Nat) (inv : List String) (wd : List String) :
    ∀ ps : List String,
      (checkLegacyPrereqs pb cur sems i inv wd ps).1 =
        ps.all (legacySatisfiedSpec pb cur sems i inv wd) := by
  intro ps
  induction ps with
  | nil => rfl
  | cons p rest ih =>
    rw [checkLegacy_cons, List.all_cons]
    cases h : legacyFailureSpec pb cur sems i inv wd p with
    | none =>
      rw [(legacyFailureSpec_none_iff pb cur sems i inv wd p).mp h]
      simp [ih]
    | some msg =>
      have hns : legacySatisfiedSpec pb cur sems i inv wd p = false := by
        rcases hb : legacySatisfiedSpec pb cur sems i inv wd p with _ | _
        · rfl
        · rw [(legacyFailureSpec_none_iff pb cur sems i inv wd p).mpr hb] at h
          cases h
      simp [hns]

/-- C2: in legacy flat-list evaluation with a gradable grade, each
prerequisite not passed earlier is checked in listed order: a same-semester
withdrawal is immediately invalid; a concurrent registration counts only
when its own result-so-far is not invalid and the prerequisite was failed in
a strictly earlier semester, an earlier withdrawal (without such a failure)
being invalid; every other case is invalid, and the first failing
prerequisite short-circuits with its reason. -/
theorem validate_course_legacy_correct (catalog : Catalog) (course : Course)
    (i : Nat) (semesters : List Semester) (hist : List (List (String × String)))
    (results : List VResult) (info : CourseInfo)
    (hW : course.grade ≠ "W") (hN : course.grade ≠ "N")
    (hc : catalog course.code = some info)
    (hg : info.prerequisite_groups = [])
    (hp : info.prerequisites ≠ []) :
    validate_course catalog course i semesters hist results =
      checkLegacyPrereqsSpec (get_passed_courses_before_semester i hist)
        (semesters.getD i emptySemester) semesters i (get_invalid_courses i results)
        (withdrawn_in semesters i) info.prerequisites ∧
    (validate_course catalog course i semesters hist results).1 =
      info.prerequisites.all
        (legacySatisfiedSpec (get_passed_courses_before_semester i hist)
          (semesters.getD i emptySemester) semesters i (get_invalid_courses i results)
          (withdrawn_in semesters i)) := by
  have hred : validate_course catalog course i semesters hist results =
      checkLegacyPrereqs (get_passed_courses_before_semester i hist)
        (semesters.getD i emptySemester) semesters i (get_invalid_courses i results)
        (withdrawn_in semesters i) info.prerequisites := by
    unfold validate_course
    simp only [beq_iff_eq, hW, hN, if_false, hc, hg, ne_eq, hp, if_true]
    simp
  refine ⟨hred.trans (checkLegacyPrereqs_eq _ _ semesters i _ _ info.prerequisites), ?_⟩
  rw [hred]
  exact checkLegacyPrereqs_fst _ _ semesters i _ _ info.prerequisites

/-- Witness for C2: the concurrent-retake scenario — X failed in semester 1
and retaken alongside Y in semester 2 makes Y valid; with the retake of X
withdrawn instead, Y is invalid by same-semester withdrawal. -/
theorem validate_course_legacy_correct_witness :
    validate_course catLegacy ⟨"Y", "y", "B", 3⟩ 1 semsLegacy
        (build_passed_courses_history semsLegacy) [] =
      (true, "All prerequisites satisfied or eligible for concurrent registration") ∧
    validate_course catLegacy ⟨"Y", "y", "B", 3⟩ 1 semsLegacyW
        (build_passed_courses_history semsLegacyW) [] =
      (false, "Prerequisite X was withdrawn (W) in this semester") :=
  ⟨((validate_course_legacy_correct catLegacy ⟨"Y", "y", "B", 3⟩ 1 semsLegacy
      (build_passed_courses_history semsLegacy) [] ⟨"Y", ["X"], []⟩
      (by decide) (by decide) rfl rfl (by decide)).1).trans (by decide),
   ((validate_course_legacy_correct catLegacy ⟨"Y", "y", "B", 3⟩ 1 semsLegacyW
      (build_passed_courses_history semsLegacyW) [] ⟨"Y", ["X"], []⟩
      (by decide) (by decide) rfl rfl (by decide)).1).trans (by decide)⟩

theorem isResultFor_set (code' : String) (i' : Nat) (r : VResult)
    (reason : String) :
    isResultFor code' i' { r with is_valid := false, reason := reason } =
      isResultFor code' i' r := rfl

theorem isResultFor_true_iff (code : String) (i : Nat) (r : VResult) :
    isResultFor code i r = true ↔ r.course_code = code ∧ r.semester_index = i := by
  unfold isResultFor
  rw [Bool.and_eq_true, beq_iff_eq, beq_iff_eq]

theorem setFirstInvalid_filter_ne (code : String) (i : Nat) (reason : String)
    (code' : String) (i' : Nat) (h : ¬(code' = code ∧ i' = i)) :
    ∀ l : List VResult,
      (setFirstInvalid code i reason l).filter (isResultFor code' i') =
        l.filter (isResultFor code' i') := by
  intro l
  induction l with
  | nil => rfl
  | cons r rest ih =>
    unfold setFirstInvalid
    rcases hr : isResultFor code i r with _ | _
    · simp only [Bool.false_eq_true, if_false, List.filter_cons, ih]
    · have hfr : isResultFor code' i' r = false := by
        rcases hb : isResultFor code' i' r with _ | _
        · rfl
        · exfalso
          apply h
          have h1 := (isResultFor_true_iff code i r).mp hr
          have h2 := (isResultFor_true_iff code' i' r).mp hb
          exact ⟨by rw [← h2.1, h1.1], by rw [← h2.2, h1.2]⟩
      simp only [if_true, List.filter_cons, isResultFor_set, hfr, Bool.false_eq_true,
        if_false]

theorem filter_setInvalid_ne (l : List VResult) (code : String) (i : Nat)
    (reason : String) (code' : String) (i' : Nat) (h : ¬(code' = code ∧ i' = i)) :
    (setInvalid l code i reason).filter (isResultFor code' i') =
      l.filter (isResultFor code' i') := by
  unfold setInvalid
  rw [List.filter_reverse, setFirstInvalid_filter_ne code i reason code' i' h,
    List.filter_reverse, List.reverse_reverse]

theorem resultLookup_setInvalid_ne (l : List VResult) (code : String) (i : Nat)
    (reason : String) (code' : String) (i' : Nat)
    (h : ¬(code' = code ∧ i' = i)) :
    resultLookup (setInvalid l code i reason) code' i' = resultLookup l code' i' := by
  unfold resultLookup
  rcases hC : (code' == "CREDIT_LIMIT") with _ | _
  · simp only [Bool.false_eq_true, if_false]
    rw [filter_setInvalid_ne l code i reason code' i' h]
  · simp only [if_true]

theorem setFirstInvalid_filter_head (code : String) (i : Nat) (reason : String) :
    ∀ (l : List VResult) (r : VResult),
      (l.filter (isResultFor code i)).head? = some r →
      ((setFirstInvalid code i reason l).filter (isResultFor code i)).head? =
        some { r with is_valid := false, reason := reason } := by
  intro l
  induction l with
  | nil => intro r h; simp at h
  | cons a rest ih =>
    intro r h
    unfold setFirstInvalid
    rcases ha : isResultFor code i a with _ | _
    · rw [List.filter_cons, ha] at h
      simp only [Bool.false_eq_true, if_false] at h
      simp only [Bool.false_eq_true, if_false, List.filter_cons, ha]
      exact ih r h
    · rw [List.filter_cons, ha] at h
      simp only [if_true, List.head?_cons, Option.some.injEq] at h
      simp only [if_true, List.filter_cons, isResultFor_set, ha, List.head?_cons,
        Option.some.injEq]
      rw [h]

theorem resultLookup_setInvalid_self (l : List VResult) (code : String) (i : Nat)
    (reason : String) (r : VResult) (h : resultLookup l code i = some r) :
    resultLookup (setInvalid l code i reason) code i =
      some { r with is_valid := false, reason := reason } := by
  unfold resultLookup at h ⊢
  rcases hC : (code == "CREDIT_LIMIT") with _ | _
  · rw [hC] at h
    simp only [Bool.false_eq_true, if_false] at h ⊢
    rw [List.getLast?_eq_head?_reverse, ← List.filter_reverse] at h
    unfold setInvalid
    rw [List.getLast?_eq_head?_reverse, ← List.filter_reverse, List.reverse_reverse]
    exact setFirstInvalid_filter_head code i reason l.reverse r h
  · rw [hC] at h
    simp at h

theorem invalidMono_refl (l : List VResult) : invalidMono l l :=
  List.forall₂_same.mpr (fun _ _ h => h)

theorem invalidMono_trans {a b c : List VResult} (h1 : invalidMono a b)
    (h2 : invalidMono b c) : invalidMono a c := by
  induction h1 generalizing c with
  | nil =>
    cases h2
    exact List.Forall₂.nil
  | cons hr _ ih =>
    cases h2 with
    | cons hr2 ht2 => exact List.Forall₂.cons (fun h => hr2 (hr h)) (ih ht2)

theorem invalidMono_setFirstInvalid (code : String) (i : Nat) (reason : String) :
    ∀ l : List VResult, invalidMono l (setFirstInvalid code i reason l) := by
  intro l
  induction l with
  | nil => exact List.Forall₂.nil
  | cons r rest ih =>
    unfold setFirstInvalid
    split
    · exact List.Forall₂.cons (fun _ => rfl) (invalidMono_refl rest)
    · exact List.Forall₂.cons (fun h => h) ih

theorem invalidMono_setInvalid (l : List VResult) (code : String) (i : Nat)
    (reason : String) : invalidMono l (setInvalid l code i reason) := by
  unfold setInvalid
  have h2 := List.forall₂_reverse_iff.mpr
    (invalidMono_setFirstInvalid code i reason l.reverse)
  rwa [List.reverse_reverse] at h2

theorem invalidMono_step1 (sems : List Semester) (l : List VResult)
    (code : String) (i : Nat) (ps : List String) :
    invalidMono l (processEntryStep1 sems l code i ps).1 := by
  unfold processEntryStep1
  split
  · exact invalidMono_setInvalid l code i _
  · exact invalidMono_refl l

theorem invalidMono_processEntry (sems : List Semester) (l : List VResult)
    (entry : (String × Nat) × List String) :
    invalidMono l (processEntry sems l entry).1 := by
  unfold processEntry
  split
  · exact invalidMono_refl l
  · split
    · exact invalidMono_refl l
    · split
      · exact invalidMono_refl l
      · split
        · exact invalidMono_refl l
        · split
          · exact invalidMono_step1 sems l entry.1.1 entry.1.2 entry.2
          · split
            · exact invalidMono_trans (invalidMono_step1 sems l entry.1.1 entry.1.2 entry.2)
                (invalidMono_setInvalid _ entry.1.1 entry.1.2 _)
            · exact invalidMono_step1 sems l entry.1.1 entry.1.2 entry.2

theorem invalidMono_passFold (sems : List Semester) :
    ∀ (entries : List ((String × Nat) × List String)) (acc : List VResult × Bool),
      invalidMono acc.1 ((entries.foldl (passStep sems) acc).1) := by
  intro entries
  induction entries with
  | nil => intro acc; exact invalidMono_refl acc.1
  | cons e rest ih =>
    intro acc
    rw [List.foldl_cons]
    exact invalidMono_trans (invalidMono_processEntry sems acc.1 e) (ih (passStep sems acc e))

theorem invalidMono_pass (catalog : Catalog) (sems : List Semester)
    (results : List VResult) :
    invalidMono results (propagation_pass catalog sems results).1 :=
  invalidMono_passFold sems (course_prereqs catalog sems) (results, false)

theorem invalidMono_aux (catalog : Catalog) (sems : List Semester) :
    ∀ (fuel : Nat) (results : List VResult),
      invalidMono results (propagate_aux catalog sems fuel results).1 := by
  intro fuel
  induction fuel with
  | zero => intro results; exact invalidMono_refl results
  | succ n ih =>
    intro results
    unfold propagate_aux
    split
    · exact invalidMono_trans (invalidMono_pass catalog sems results)
        (ih (propagation_pass catalog sems results).1)
    · exact invalidMono_pass catalog sems results

/-- C3: invalidation is monotonic — for every catalog, transcript and result
list, no result transitions from invalid back to valid, neither across a
single propagation pass nor across the whole `propagate_invalidation` run. -/
theorem propagation_monotone (catalog : Catalog) (semesters : List Semester)
    (results : List VResult) :
    invalidMono results (propagation_pass catalog semesters results).1 ∧
    invalidMono results (propagate_invalidation catalog semesters results) :=
  ⟨invalidMono_pass catalog semesters results,
   invalidMono_aux catalog semesters 10 results⟩

/-- Witness for C3 at a concrete run that flips a result. -/
theorem propagation_monotone_witness :
    invalidMono resWdep (propagate_invalidation catWdep semsWdep resWdep) :=
  (propagation_monotone catWdep semsWdep resWdep).2

theorem processEntry_lookup_ne (sems : List Semester) (l : List VResult)
    (entry : (String × Nat) × List String) (code : String) (i : Nat)
    (h : entry.1 ≠ (code, i)) :
    resultLookup (processEntry sems l entry).1 code i = resultLookup l code i := by
  have hne : ¬(code = entry.1.1 ∧ i = entry.1.2) := by
    rintro ⟨h1, h2⟩
    exact h (by rw [h1, h2])
  have hstep1 : resultLookup (processEntryStep1 sems l entry.1.1 entry.1.2 entry.2).1
      code i = resultLookup l code i := by
    unfold processEntryStep1
    split
    · exact resultLookup_setInvalid_ne l entry.1.1 entry.1.2 _ code i hne
    · rfl
  unfold processEntry
  split
  · rfl
  · split
    · rfl
    · split
      · rfl
      · split
        · rfl
        · split
          · exact hstep1
          · split
            · exact (resultLookup_setInvalid_ne _ entry.1.1 entry.1.2 _ code i hne).trans
                hstep1
            · exact hstep1

theorem processEntry_preserve_invalid (sems : List Semester) (l : List VResult)
    (entry : (String × Nat) × List String) (code : String) (i : Nat) (r : VResult)
    (hl : resultLookup l code i = some r) (hv : r.is_valid = false) :
    resultLookup (processEntry sems l entry).1 code i = some r := by
  by_cases hk : entry.1 = (code, i)
  · have e1 : entry.1.1 = code := by rw [hk]
    have e2 : entry.1.2 = i := by rw [hk]
    unfold processEntry
    rw [e1, e2, hl]
    simp only [hv, Bool.not_false, if_true]
    exact hl
  · rw [processEntry_lookup_ne sems l entry code i hk]
    exact hl

theorem processEntry_flip (sems : List Semester) (l : List VResult) (code : String)
    (i : Nat) (ps : List String) (p : String) (course : Course) (r : VResult)
    (hp : p ∈ ps) (hw : (withdrawn_in sems i).contains p = true)
    (hcourse : (sems.getD i emptySemester).courses.find? (fun c => c.code == code) =
      some course)
    (hN : course.grade ≠ "N")
    (hl : resultLookup l code i = some r) :
    ∃ r', resultLookup (processEntry sems l ((code, i), ps)).1 code i = some r' ∧
      r'.is_valid = false := by
  obtain ⟨q, hq⟩ := Option.isSome_iff_exists.mp
    (List.find?_isSome.mpr ⟨p, hp, hw⟩)
  have hs1 : processEntryStep1 sems l code i ps =
      (setInvalid l code i
        ("Prerequisite " ++ q ++ " was withdrawn (W) or failed (F) in this semester"),
        true) := by
    unfold processEntryStep1
    rw [hq]
  have hl1 : resultLookup (processEntryStep1 sems l code i ps).1 code i =
      some
        { r with
          is_valid := false,
          reason := "Prerequisite " ++ q ++
            " was withdrawn (W) or failed (F) in this semester" } := by
    rw [hs1]
    exact resultLookup_setInvalid_self l code i _ r hl
  have hN' : (course.grade == "N") = false := by
    rw [beq_eq_false_iff_ne]
    exact hN
  unfold processEntry
  dsimp only
  rw [hl]
  rcases hv : r.is_valid with _ | _
  · simp only [hv, Bool.not_false, if_true]
    exact ⟨r, hl, hv⟩
  · simp only [hv, Bool.not_true, Bool.false_eq_true, if_false]
    rw [hcourse]
    simp only [hN', Bool.false_eq_true, if_false]
    rcases hWg : (course.grade == "W") with _ | _
    · simp only [hWg, Bool.false_eq_true, if_false]
      rcases h2 : ps.find? (fun p' => prereq_invalid_up_to
          (processEntryStep1 sems l code i ps).1 p' i) with _ | p2
      · exact ⟨_, hl1, rfl⟩
      · exact ⟨_, resultLookup_setInvalid_self _ code i _ _ hl1, rfl⟩
    · simp only [hWg, if_true]
      exact ⟨_, hl1, rfl⟩

theorem processEntry_W_noop (sems : List Semester) (l : List VResult) (code : String)
    (i : Nat) (ps : List String) (course : Course)
    (hcourse : (sems.getD i emptySemester).courses.find? (fun c => c.code == code) =
      some course)
    (hW : course.grade = "W")
    (hfind : ps.find? (fun p => (withdrawn_in sems i).contains p) = none) :
    processEntry sems l ((code, i), ps) = (l, false) := by
  have hs1 : processEntryStep1 sems l code i ps = (l, false) := by
    unfold processEntryStep1
    rw [hfind]
  unfold processEntry
  dsimp only
  rcases hl : resultLookup l code i with _ | r
  · rfl
  · rcases hv : r.is_valid with _ | _
    · simp only [hv, Bool.not_false, if_true]
    · simp only [hv, Bool.not_true, Bool.false_eq_true, if_false]
      rw [hcourse]
      simp only [hW]
      rw [if_neg (by decide), if_pos (by decide)]
      exact hs1

theorem passFold_lookup_ne (sems : List Semester) (code : String) (i : Nat) :
    ∀ (entries : List ((String × Nat) × List String)) (acc : List VResult × Bool),
      (∀ e ∈ entries, e.1 ≠ (code, i)) →
      resultLookup ((entries.foldl (passStep sems) acc).1) code i =
        resultLookup acc.1 code i := by
  intro entries
  induction entries with
  | nil => intro acc _; rfl
  | cons e rest ih =>
    intro acc hne
    rw [List.foldl_cons,
      ih (passStep sems acc e) (fun x hx => hne x (List.mem_cons_of_mem e hx))]
    exact processEntry_lookup_ne sems acc.1 e code i (hne e (List.mem_cons_self e rest))

theorem passFold_preserve_invalid (sems : List Semester) (code : String) (i : Nat)
    (r : VResult) (hv : r.is_valid = false) :
    ∀ (entries : List ((String × Nat) × List String)) (acc : List VResult × Bool),
      resultLookup acc.1 code i = some r →
      resultLookup ((entries.foldl (passStep sems) acc).1) code i = some r := by
  intro entries
  induction entries with
  | nil => intro acc h; exact h
  | cons e rest ih =>
    intro acc h
    rw [List.foldl_cons]
    exact ih (passStep sems acc e) (processEntry_preserve_invalid sems acc.1 e code i r h hv)

theorem passFold_preserve_noop (sems : List Semester) (code : String) (i : Nat) :
    ∀ (entries : List ((String × Nat) × List String)) (acc : List VResult × Bool),
      (∀ e ∈ entries, ∀ l : List VResult,
        resultLookup (processEntry sems l e).1 code i = resultLookup l code i) →
      resultLookup ((entries.foldl (passStep sems) acc).1) code i =
        resultLookup acc.1 code i := by
  intro entries
  induction entries with
  | nil => intro acc _; rfl
  | cons e rest ih =>
    intro acc hH
    rw [List.foldl_cons,
      ih (passStep sems acc e) (fun x hx => hH x (List.mem_cons_of_mem e hx))]
    exact hH e (List.mem_cons_self e rest) acc.1

theorem addPrereqEntry_mem_mono (catalog : Catalog) (i : Nat)
    (acc : List ((String × Nat) × List String)) (c : Course)
    (e : (String × Nat) × List String) (h : e ∈ acc) :
    e ∈ addPrereqEntry catalog i acc c := by
  unfold addPrereqEntry
  split
  · exact h
  · split
    · exact h
    · split
      · exact h
      · exact List.mem_append_left _ h

theorem addPrereqEntry_keys_nodup (catalog : Catalog) (i : Nat)
    (acc : List ((String × Nat) × List String)) (c : Course)
    (h : (acc.map (fun e => e.1)).Nodup) :
    ((addPrereqEntry catalog i acc c).map (fun e => e.1)).Nodup := by
  unfold addPrereqEntry
  split
  · exact h
  · split
    · exact h
    · split
      · exact h
      · next hany =>
        rw [List.map_append, List.nodup_append]
        refine ⟨h, List.nodup_singleton _, ?_⟩
        intro k hk hk2
        rw [List.map_cons, List.map_nil, List.mem_singleton] at hk2
        subst hk2
        obtain ⟨e, he, hke⟩ := List.mem_map.mp hk
        exact hany (List.any_eq_true.mpr ⟨e, he, by rw [hke]; exact decide_eq_true rfl⟩)

theorem foldAdd_mem_mono (catalog : Catalog) (i : Nat) :
    ∀ (cs : List Course) (acc : List ((String × Nat) × List String))
      (e : (String × Nat) × List String), e ∈ acc →
      e ∈ cs.foldl (addPrereqEntry catalog i) acc := by
  intro cs
  induction cs with
  | nil => intro acc e h; exact h
  | cons c rest ih =>
    intro acc e h
    rw [List.foldl_cons]
    exact ih (addPrereqEntry catalog i acc c) e (addPrereqEntry_mem_mono catalog i acc c e h)

theorem foldAdd_keys_nodup (catalog : Catalog) (i : Nat) :
    ∀ (cs : List Course) (acc : List ((String × Nat) × List String)),
      (acc.map (fun e => e.1)).Nodup →
      ((cs.foldl (addPrereqEntry catalog i) acc).map (fun e => e.1)).Nodup := by
  intro cs
  induction cs with
  | nil => intro acc h; exact h
  | cons c rest ih =>
    intro acc h
    rw [List.foldl_cons]
    exact ih (addPrereqEntry catalog i acc c) (addPrereqEntry_keys_nodup catalog i acc c h)

theorem cpf_mem_mono (catalog : Catalog) :
    ∀ (sl : List Semester) (j : Nat) (acc : List ((String × Nat) × List String))
      (e : (String × Nat) × List String), e ∈ acc →
      e ∈ course_prereqs_from catalog j sl acc := by
  intro sl
  induction sl with
  | nil => intro j acc e h; exact h
  | cons s rest ih =>
    intro j acc e h
    unfold course_prereqs_from
    exact ih (j + 1) _ e (foldAdd_mem_mono catalog j s.courses acc e h)

theorem cpf_keys_nodup (catalog : Catalog) :
    ∀ (sl : List Semester) (j : Nat) (acc : List ((String × Nat) × List String)),
      (acc.map (fun e => e.1)).Nodup →
      ((course_prereqs_from catalog j sl acc).map (fun e => e.1)).Nodup := by
  intro sl
  induction sl with
  | nil => intro j acc h; exact h
  | cons s rest ih =>
    intro j acc h
    unfold course_prereqs_from
    exact ih (j + 1) _ (foldAdd_keys_nodup catalog j s.courses acc h)

theorem course_prereqs_keys_nodup (catalog : Catalog) (sems : List Semester) :
    ((course_prereqs catalog sems).map (fun e => e.1)).Nodup :=
  cpf_keys_nodup catalog sems 0 [] List.nodup_nil

theorem addPrereqEntry_val (catalog : Catalog) (i : Nat)
    (acc : List ((String × Nat) × List String)) (c : Course)
    (h : ∀ e ∈ acc, entryVal catalog e) :
    ∀ e ∈ addPrereqEntry catalog i acc c, entryVal catalog e := by
  intro e he
  unfold addPrereqEntry at he
  rcases hcat : catalog c.code with _ | info
  · rw [hcat] at he
    exact h e he
  · rw [hcat] at he
    dsimp only at he
    by_cases hm : merged_prereqs info = []
    · rw [if_pos hm] at he
      exact h e he
    · rw [if_neg hm] at he
      by_cases ha : (acc.any (fun e => e.1 = (c.code, i))) = true
      · rw [if_pos ha] at he
        exact h e he
      · rw [if_neg ha] at he
        rcases List.mem_append.mp he with h1 | h1
        · exact h e h1
        · rw [List.mem_singleton] at h1
          subst h1
          exact ⟨info, hcat, rfl⟩

theorem foldAdd_val (catalog : Catalog) (i : Nat) :
    ∀ (cs : List Course) (acc : List ((String × Nat) × List String)),
      (∀ e ∈ acc, entryVal catalog e) →
      ∀ e ∈ cs.foldl (addPrereqEntry catalog i) acc, entryVal catalog e := by
  intro cs
  induction cs with
  | nil => intro acc h; exact h
  | cons c rest ih =>
    intro acc h
    rw [List.foldl_cons]
    exact ih (addPrereqEntry catalog i acc c) (addPrereqEntry_val catalog i acc c h)

theorem cpf_val (catalog : Catalog) :
    ∀ (sl : List Semester) (j : Nat) (acc : List ((String × Nat) × List String)),
      (∀ e ∈ acc, entryVal catalog e) →
      ∀ e ∈ course_prereqs_from catalog j sl acc, entryVal catalog e := by
  intro sl
  induction sl with
  | nil => intro j acc h; exact h
  | cons s rest ih =>
    intro j acc h
    unfold course_prereqs_from
    exact ih (j + 1) _ (foldAdd_val catalog j s.courses acc h)

theorem course_prereqs_val (catalog : Catalog) (sems : List Semester) :
    ∀ e ∈ course_prereqs catalog sems, entryVal catalog e :=
  cpf_val catalog sems 0 [] (fun e he => absurd he (List.not_mem_nil e))

theorem addPrereqEntry_key_self (catalog : Catalog) (i : Nat)
    (acc : List ((String × Nat) × List String)) (c : Course) (info : CourseInfo)
    (hcat : catalog c.code = some info) (hm : merged_prereqs info ≠ []) :
    (c.code, i) ∈ (addPrereqEntry catalog i acc c).map (fun e => e.1) := by
  unfold addPrereqEntry
  rw [hcat]
  dsimp only
  rw [if_neg hm]
  by_cases ha : (acc.any (fun e => e.1 = (c.code, i))) = true
  · rw [if_pos ha]
    obtain ⟨e, he, hk⟩ := List.any_eq_true.mp ha
    rw [← of_decide_eq_true hk]
    exact List.mem_map_of_mem _ he
  · rw [if_neg ha, List.map_append]
    exact List.mem_append_right _ (by simp)

theorem foldAdd_keys_mono (catalog : Catalog) (i : Nat) :
    ∀ (cs : List Course) (acc : List ((String × Nat) × List String))
      (k : String × Nat), k ∈ acc.map (fun e => e.1) →
      k ∈ (cs.foldl (addPrereqEntry catalog i) acc).map (fun e => e.1) := by
  intro cs acc k h
  obtain ⟨e, he, hke⟩ := List.mem_map.mp h
  rw [← hke]
  exact List.mem_map_of_mem _ (foldAdd_mem_mono catalog i cs acc e he)

theorem cpf_keys_mono (catalog : Catalog) (sl : List Semester) (j : Nat)
    (acc : List ((String × Nat) × List String)) (k : String × Nat)
    (h : k ∈ acc.map (fun e => e.1)) :
    k ∈ (course_prereqs_from catalog j sl acc).map (fun e => e.1) := by
  obtain ⟨e, he, hke⟩ := List.mem_map.mp h
  rw [← hke]
  exact List.mem_map_of_mem _ (cpf_mem_mono catalog sl j acc e he)

theorem foldAdd_key (catalog : Catalog) (i : Nat) :
    ∀ (cs : List Course) (acc : List ((String × Nat) × List String))
      (course : Course) (info : CourseInfo), course ∈ cs →
      catalog course.code = some info → merged_prereqs info ≠ [] →
      (course.code, i) ∈ ((cs.foldl (addPrereqEntry catalog i) acc).map (fun e => e.1)) := by
  intro cs
  induction cs with
  | nil => intro acc course info h; cases h
  | cons c0 rest ih =>
    intro acc course info hmem hcat hm
    rw [List.foldl_cons]
    rcases List.mem_cons.mp hmem with h | h
    · subst h
      exact foldAdd_keys_mono catalog i rest _ _
        (addPrereqEntry_key_self catalog i acc course info hcat hm)
    · exact ih (addPrereqEntry catalog i acc c0) course info h hcat hm

theorem cpf_key (catalog : Catalog) :
    ∀ (sl : List Semester) (j i' : Nat) (acc : List ((String × Nat) × List String))
      (course : Course) (info : CourseInfo),
      course ∈ (sl.getD i' emptySemester).courses →
      catalog course.code = some info → merged_prereqs info ≠ [] →
      i' < sl.length →
      (course.code, j + i') ∈ ((course_prereqs_from catalog j sl acc).map (fun e => e.1)) := by
  intro sl
  induction sl with
  | nil =>
    intro j i' acc course info _ _ _ hlen
    exact absurd hlen (Nat.not_lt_zero i')
  | cons s rest ih =>
    intro j i' acc course info hmem hcat hm hlen
    unfold course_prereqs_from
    rcases i' with _ | n
    · rw [List.getD_cons_zero] at hmem
      rw [Nat.add_zero]
      exact cpf_keys_mono catalog rest (j + 1) _ _
        (foldAdd_key catalog j s.courses acc course info hmem hcat hm)
    · rw [List.getD_cons_succ] at hmem
      have hres := ih (j + 1) n (s.courses.foldl (addPrereqEntry catalog j) acc)
        course info hmem hcat hm (Nat.lt_of_succ_lt_succ hlen)
      rw [show j + (n + 1) = (j + 1) + n by omega]
      exact hres

theorem course_prereqs_mem (catalog : Catalog) (sems : List Semester)
    (code : String) (i : Nat) (info : CourseInfo) (course : Course)
    (hc : catalog code = some info)
    (hmem : course ∈ (sems.getD i emptySemester).courses) (hcode : course.code = code)
    (hm : merged_prereqs info ≠ []) :
    ((code, i), merged_prereqs info) ∈ course_prereqs catalog sems := by
  have hi : i < sems.length := by
    by_contra hnot
    rw [List.getD_eq_default _ _ (Nat.le_of_not_lt hnot)] at hmem
    simp [emptySemester] at hmem
  have hkey : (code, i) ∈ ((course_prereqs catalog sems).map (fun e => e.1)) := by
    have hres := cpf_key catalog sems 0 i [] course info hmem
      (by rw [hcode]; exact hc) hm hi
    rw [hcode, Nat.zero_add] at hres
    exact hres
  obtain ⟨e, he, hke⟩ := List.mem_map.mp hkey
  obtain ⟨info', hcat', hv'⟩ := course_prereqs_val catalog sems e he
  rcases e with ⟨k, v⟩
  dsimp only at hke hcat' hv'
  subst hke
  have hinfo : info' = info := by
    rw [hc] at hcat'
    exact (Option.some.injEq _ _).mp hcat'.symm
  rw [hv', hinfo] at he
  exact he

theorem pass_flip (catalog : Catalog) (sems : List Semester) (results : List VResult)
    (code : String) (i : Nat) (ps : List String) (p : String) (course : Course)
    (r : VResult)
    (hmem : ((code, i), ps) ∈ course_prereqs catalog sems)
    (hp : p ∈ ps) (hw : (withdrawn_in sems i).contains p = true)
    (hcourse : (sems.getD i emptySemester).courses.find? (fun c => c.code == code) =
      some course)
    (hN : course.grade ≠ "N")
    (hl : resultLookup results code i = some r) :
    ∃ r', resultLookup (propagation_pass catalog sems results).1 code i = some r' ∧
      r'.is_valid = false := by
  obtain ⟨pre, post, hsplit⟩ := List.append_of_mem hmem
  have hnodup := course_prereqs_keys_nodup catalog sems
  rw [hsplit, List.map_append, List.map_cons] at hnodup
  have hmid := List.nodup_middle.mp hnodup
  rw [List.nodup_cons] at hmid
  have hkeyout : ((code, i) : String × Nat) ∉
      pre.map (fun e => e.1) ++ post.map (fun e => e.1) := hmid.1
  have hpre : ∀ e ∈ pre, e.1 ≠ (code, i) := by
    intro e he hk
    exact hkeyout (List.mem_append_left _ (hk ▸ List.mem_map_of_mem _ he))
  have hpost : ∀ e ∈ post, e.1 ≠ (code, i) := by
    intro e he hk
    exact hkeyout (List.mem_append_right _ (hk ▸ List.mem_map_of_mem _ he))
  unfold propagation_pass
  rw [hsplit, List.foldl_append, List.foldl_cons]
  have hlpre : resultLookup ((pre.foldl (passStep sems) (results, false)).1) code i =
      some r := by
    rw [passFold_lookup_ne sems code i pre (results, false) hpre]
    exact hl
  obtain ⟨r1, hr1, hv1⟩ := processEntry_flip sems
    ((pre.foldl (passStep sems) (results, false)).1) code i ps p course r
    hp hw hcourse hN hlpre
  exact ⟨r1, by
    rw [passFold_lookup_ne sems code i post _ hpost]
    exact hr1, hv1⟩

theorem propagate_aux_preserve_invalid (catalog : Catalog) (sems : List Semester)
    (code : String) (i : Nat) (r : VResult) (hv : r.is_valid = false) :
    ∀ (fuel : Nat) (l : List VResult), resultLookup l code i = some r →
      resultLookup (propagate_aux catalog sems fuel l).1 code i = some r := by
  intro fuel
  induction fuel with
  | zero => intro l h; exact h
  | succ n ih =>
    intro l h
    have hpass : resultLookup (propagation_pass catalog sems l).1 code i = some r :=
      passFold_preserve_invalid sems code i r hv (course_prereqs catalog sems)
        (l, false) h
    unfold propagate_aux
    split
    · exact ih (propagation_pass catalog sems l).1 hpass
    · exact hpass

/-- Shared flip lemma: a still-registered, non-N course whose merged
prerequisite set contains a course withdrawn in the same semester has its
result invalid after `propagate_invalidation`, whatever its result was. -/
theorem propagate_flips_withdrawn_dep (catalog : Catalog) (sems : List Semester)
    (results : List VResult) (code : String) (i : Nat) (info : CourseInfo)
    (course : Course) (p : String) (r : VResult)
    (hc : catalog code = some info)
    (hp : p ∈ merged_prereqs info)
    (hw : (withdrawn_in sems i).contains p = true)
    (hcourse : (sems.getD i emptySemester).courses.find? (fun c => c.code == code) =
      some course)
    (hN : course.grade ≠ "N")
    (hl : resultLookup results code i = some r) :
    ∃ r', resultLookup (propagate_invalidation catalog sems results) code i =
      some r' ∧ r'.is_valid = false := by
  have hmem : ((code, i), merged_prereqs info) ∈ course_prereqs catalog sems :=
    course_prereqs_mem catalog sems code i info course hc
      (List.mem_of_find?_eq_some hcourse)
      (by have := List.find?_some hcourse; rwa [beq_iff_eq] at this)
      (List.ne_nil_of_mem hp)
  obtain ⟨r1, hr1, hv1⟩ := pass_flip catalog sems results code i
    (merged_prereqs info) p course r hmem hp hw hcourse hN hl
  unfold propagate_invalidation propagate_aux
  split
  · exact ⟨r1, propagate_aux_preserve_invalid catalog sems code i r1 hv1 9
      (propagation_pass catalog sems results).1 hr1, hv1⟩
  · exact ⟨r1, hr1, hv1⟩

/-- C10: the propagation-phase same-semester-withdrawal rule does not consult
passed-course history — a still-valid, non-N course whose merged prerequisite
set contains a course registered with grade W in the same semester is flipped
to invalid by `propagate_invalidation` even when that prerequisite appears in
the previous semester's passed-courses snapshot (the case the initial
`validate_course` accepts, since there the passed-before check runs first). -/
theorem propagation_ignores_history_on_withdrawal (catalog : Catalog)
    (sems : List Semester) (results : List VResult) (code : String) (i : Nat)
    (info : CourseInfo) (course : Course) (p : String) (r : VResult)
    (hc : catalog code = some info)
    (hp : p ∈ merged_prereqs info)
    (hw : (withdrawn_in sems i).contains p = true)
    (_hpassed : containsCode
      (get_passed_courses_before_semester i (build_passed_courses_history sems)) p = true)
    (hcourse : (sems.getD i emptySemester).courses.find? (fun c => c.code == code) =
      some course)
    (hN : course.grade ≠ "N")
    (hl : resultLookup results code i = some r) (_hv : r.is_valid = true) :
    ∃ r', resultLookup (propagate_invalidation catalog sems results) code i =
      some r' ∧ r'.is_valid = false :=
  propagate_flips_withdrawn_dep catalog sems results code i info course p r
    hc hp hw hcourse hN hl

/-- Witness for C10: P is passed in semester 1 yet withdrawn alongside Y in
semester 2; the initial evaluation accepts Y, the propagation flips it. -/
theorem propagation_ignores_history_on_withdrawal_witness :
    validate_course catPassedW ⟨"Y", "y", "A", 3⟩ 1 semsPassedW
        (build_passed_courses_history semsPassedW) [] =
      (true, "All prerequisites satisfied or eligible for concurrent registration") ∧
    ∃ r', resultLookup (propagate_invalidation catPassedW semsPassedW resPassedW)
      "Y" 1 = some r' ∧ r'.is_valid = false :=
  ⟨by decide,
   propagation_ignores_history_on_withdrawal catPassedW semsPassedW resPassedW
     "Y" 1 ⟨"Y", ["P"], []⟩ ⟨"Y", "y", "A", 3⟩ "P"
     ⟨"S2", 1, "Y", "y", "A", true, "All prerequisites satisfied", "prerequisite"⟩
     rfl (by decide) (by decide) (by decide) (by decide) (by decide)
     (by decide) rfl⟩

/-- Counterexample to C4 as stated: course X registered with grade W whose
prerequisite P is also withdrawn in the same semester starts valid and is
flipped to invalid by `propagate_invalidation` — a W-grade course is *not*
skipped by the same-semester-withdrawal rule, which runs before the skip. -/
theorem withdrawn_course_flipped_cex :
    ((resultLookup resWdep "X" 0).map (fun r => r.is_valid) = some true) ∧
    ((resultLookup (propagate_invalidation catWdep semsWdep resWdep) "X" 0).map
      (fun r => r.is_valid) = some false) := by
  constructor
  · decide
  · decide

theorem passFold_preserve_exact (sems : List Semester) (catalog : Catalog)
    (code : String) (i : Nat)
    (H : ∀ e ∈ course_prereqs catalog sems, ∀ l : List VResult,
      resultLookup (processEntry sems l e).1 code i = resultLookup l code i) :
    ∀ (fuel : Nat) (l : List VResult),
      resultLookup (propagate_aux catalog sems fuel l).1 code i =
        resultLookup l code i := by
  intro fuel
  induction fuel with
  | zero => intro l; rfl
  | succ n ih =>
    intro l
    have hpass : resultLookup (propagation_pass catalog sems l).1 code i =
        resultLookup l code i :=
      passFold_preserve_noop sems code i (course_prereqs catalog sems) (l, false) H
    unfold propagate_aux
    split
    · rw [ih (propagation_pass catalog sems l).1]
      exact hpass
    · exact hpass

/-- C4 amended: a W-grade course is skipped as a target of the
invalid-prerequisite propagation rule — when none of its merged prerequisites
is withdrawn in its semester its result survives `propagate_invalidation`
unchanged — but the same-semester-withdrawal rule, which runs before the
skip, can still flip a W-grade course; and a withdrawn course still acts as
a withdrawn-prerequisite trigger invalidating its same-semester dependents. -/
theorem withdrawn_course_propagation_amended (catalog : Catalog)
    (sems : List Semester) (results : List VResult) :
    (∀ (code : String) (i : Nat) (info : CourseInfo) (course : Course) (r : VResult),
      catalog code = some info →
      (sems.getD i emptySemester).courses.find? (fun c => c.code == code) =
        some course →
      course.grade = "W" →
      (∀ p ∈ merged_prereqs info, (withdrawn_in sems i).contains p = false) →
      resultLookup results code i = some r →
      resultLookup (propagate_invalidation catalog sems results) code i = some r) ∧
    (∀ (code : String) (i : Nat) (info : CourseInfo) (course : Course) (p : String)
      (r : VResult),
      catalog code = some info →
      p ∈ merged_prereqs info →
      (withdrawn_in sems i).contains p = true →
      (sems.getD i emptySemester).courses.find? (fun c => c.code == code) =
        some course →
      course.grade ≠ "N" →
      resultLookup results code i = some r →
      ∃ r', resultLookup (propagate_invalidation catalog sems results) code i =
        some r' ∧ r'.is_valid = false) := by
  constructor
  · intro code i info course r hc hcourse hW hall hl
    have H : ∀ e ∈ course_prereqs catalog sems, ∀ l : List VResult,
        resultLookup (processEntry sems l e).1 code i = resultLookup l code i := by
      intro e he l
      by_cases hk : e.1 = (code, i)
      · obtain ⟨info', hcat', hv'⟩ := course_prereqs_val catalog sems e he
        have hinfo : info' = info := by
          rw [hk] at hcat'
          dsimp only at hcat'
          rw [hc] at hcat'
          exact (Option.some.injEq _ _).mp hcat'.symm
        have hfind : e.2.find? (fun p => (withdrawn_in sems i).contains p) = none := by
          rw [hv', hinfo]
          rw [List.find?_eq_none]
          intro p hp
          rw [hall p hp]
          exact Bool.false_ne_true
        have he2 : e = ((code, i), e.2) := by
          rcases e with ⟨k, v⟩
          dsimp only at hk
          rw [hk]
        rw [he2]
        rw [processEntry_W_noop sems l code i e.2 course hcourse hW
          (by
            have hfind2 := hfind
            rw [he2] at hfind2
            exact hfind2)]
      · exact processEntry_lookup_ne sems l e code i hk
    rw [show propagate_invalidation catalog sems results =
        (propagate_aux catalog sems 10 results).1 from rfl]
    rw [passFold_preserve_exact sems catalog code i H 10 results]
    exact hl
  · intro code i info course p r hc hp hw hcourse hN hl
    exact propagate_flips_withdrawn_dep catalog sems results code i info course p r
      hc hp hw hcourse hN hl

/-- Witness for C4 (amended): X withdrawn with no withdrawn prerequisite
keeps its valid result through propagation; X with a same-semester withdrawn
prerequisite P is flipped. -/
theorem withdrawn_course_propagation_amended_witness :
    resultLookup (propagate_invalidation catWskip semsWskip resWskip) "X" 0 =
      some ⟨"S1", 0, "X", "x", "W", true, "Course was withdrawn", "prerequisite"⟩ ∧
    ∃ r', resultLookup (propagate_invalidation catWdep semsWdep resWdep) "X" 0 =
      some r' ∧ r'.is_valid = false :=
  ⟨(withdrawn_course_propagation_amended catWskip semsWskip resWskip).1
     "X" 0 ⟨"X", ["Q"], []⟩ ⟨"X", "x", "W", 3⟩
     ⟨"S1", 0, "X", "x", "W", true, "Course was withdrawn", "prerequisite"⟩
     rfl (by decide) rfl (by decide) rfl,
   (withdrawn_course_propagation_amended catWdep semsWdep resWdep).2
     "X" 0 ⟨"X", ["P"], []⟩ ⟨"X", "x", "W", 3⟩ "P"
     ⟨"S1", 0, "X", "x", "W", true, "Course was withdrawn", "prerequisite"⟩
     rfl (by decide) (by decide) (by decide) (by decide) rfl⟩

theorem step1_not_changed (sems : List Semester) (l : List VResult) (code : String)
    (i : Nat) (ps : List String)
    (h : (processEntryStep1 sems l code i ps).2 = false) :
    (processEntryStep1 sems l code i ps).1 = l := by
  unfold processEntryStep1 at h ⊢
  split at h
  · cases h
  · rfl

theorem processEntry_not_changed (sems : List Semester) (l : List VResult)
    (entry : (String × Nat) × List String) :
    (processEntry sems l entry).2 = false → (processEntry sems l entry).1 = l := by
  unfold processEntry
  split
  · intro _; rfl
  · split
    · intro _; rfl
    · split
      · intro _; rfl
      · split
        · intro _; rfl
        · split
          · exact step1_not_changed sems l entry.1.1 entry.1.2 entry.2
          · split
            · intro h; cases h
            · exact step1_not_changed sems l entry.1.1 entry.1.2 entry.2

theorem passFold_not_changed (sems : List Semester) :
    ∀ (entries : List ((String × Nat) × List String)) (acc : List VResult × Bool),
      (entries.foldl (passStep sems) acc).2 = false →
      (entries.foldl (passStep sems) acc).1 = acc.1 ∧ acc.2 = false := by
  intro entries
  induction entries with
  | nil => intro acc h; exact ⟨rfl, h⟩
  | cons e rest ih =>
    intro acc h
    rw [List.foldl_cons] at h ⊢
    obtain ⟨h1, h2⟩ := ih (passStep sems acc e) h
    have h3 : acc.2 = false ∧ (processEntry sems acc.1 e).2 = false := by
      have : (acc.2 || (processEntry sems acc.1 e).2) = false := h2
      exact Bool.or_eq_false_iff.mp this
    refine ⟨?_, h3.1⟩
    rw [h1]
    exact processEntry_not_changed sems acc.1 e h3.2

theorem pass_not_changed (catalog : Catalog) (sems : List Semester)
    (l : List VResult) (h : (propagation_pass catalog sems l).2 = false) :
    (propagation_pass catalog sems l).1 = l :=
  (passFold_not_changed sems (course_prereqs catalog sems) (l, false) h).1

theorem propagate_aux_bound (catalog : Catalog) (sems : List Semester) :
    ∀ (fuel : Nat) (l : List VResult), 1 ≤ fuel →
      1 ≤ (propagate_aux catalog sems fuel l).2 ∧
      (propagate_aux catalog sems fuel l).2 ≤ fuel ∧
      ((propagate_aux catalog sems fuel l).2 = fuel ∨
        propagation_pass catalog sems (propagate_aux catalog sems fuel l).1 =
          ((propagate_aux catalog sems fuel l).1, false)) := by
  intro fuel
  induction fuel with
  | zero => intro l h; exact absurd h (by omega)
  | succ n ih =>
    intro l _
    unfold propagate_aux
    rcases hch : (propagation_pass catalog sems l).2 with _ | _
    · simp only [hch, Bool.false_eq_true, if_false]
      refine ⟨by omega, by omega, Or.inr ?_⟩
      have hu : (propagation_pass catalog sems l).1 = l :=
        pass_not_changed catalog sems l hch
      rw [hu]
      have hpair : propagation_pass catalog sems l =
          ((propagation_pass catalog sems l).1, (propagation_pass catalog sems l).2) :=
        rfl
      rw [hpair, hu, hch]
    · simp only [hch, if_true]
      rcases n with _ | m
      · exact ⟨by simp [propagate_aux], by simp [propagate_aux],
          Or.inl (by simp [propagate_aux])⟩
      · obtain ⟨hb1, hb2, hb3⟩ := ih (propagation_pass catalog sems l).1 (by omega)
        refine ⟨?_, ?_, ?_⟩
        · show 1 ≤ (propagate_aux catalog sems (m + 1)
            (propagation_pass catalog sems l).1).2 + 1
          omega
        · show (propagate_aux catalog sems (m + 1)
            (propagation_pass catalog sems l).1).2 + 1 ≤ m + 1 + 1
          omega
        · rcases hb3 with hcnt | hfix
          · refine Or.inl ?_
            show (propagate_aux catalog sems (m + 1)
              (propagation_pass catalog sems l).1).2 + 1 = m + 1 + 1
            omega
          · exact Or.inr hfix

/-- C6: `propagate_invalidation` terminates on every input: it performs at
least one and at most 10 passes, and whenever it stops below the cap the
result is a fixpoint — a further pass changes nothing. -/
theorem propagate_terminates (catalog : Catalog) (semesters : List Semester)
    (results : List VResult) :
    1 ≤ propagate_iterations catalog semesters results ∧
    propagate_iterations catalog semesters results ≤ 10 ∧
    (propagate_iterations catalog semesters results = 10 ∨
      propagation_pass catalog semesters (propagate_invalidation catalog semesters results) =
        (propagate_invalidation catalog semesters results, false)) :=
  propagate_aux_bound catalog semesters 10 results (by omega)

/-- Witness for C6: a concrete run converges after 2 of the 10 allowed
passes and its result is a fixpoint of the pass. -/
theorem propagate_terminates_witness :
    propagate_iterations catWdep semsWdep resWdep = 2 ∧
    propagation_pass catWdep semsWdep (propagate_invalidation catWdep semsWdep resWdep) =
      (propagate_invalidation catWdep semsWdep resWdep, false) := by
  constructor
  · decide
  · rcases (propagate_terminates catWdep semsWdep resWdep).2.2 with h | h
    · exact absurd h (by decide)
    · exact h
